import Mathlib

/-!
Shallow embedding of the InfraSync helpdesk core (Ticket lifecycle and
access-control engine) and proofs about it.

The definitions below are direct translations of the JavaScript source:
  * `src/server/models/Ticket.js`   — ticket schema methods
  * `src/unnamed/part_001` (User model) — subscription resolution, toJSON
  * `src/server/routes/tickets.js`  — route-level handlers
  * `src/server/routes/comments.js` — route-level handlers

Conventions: Mongo ObjectIds become `Nat`; `Date` values become integer
millisecond timestamps (`Int`); absent/optional document fields become
`Option`; a rejected promise / HTTP error response becomes `Except`.
-/

namespace InfraSync

abbrev UserId := Nat

/-- Roles, from the User schema enum `['admin', 'agent', 'user', 'manager']`. -/
inductive Role
  | admin
  | manager
  | agent
  | user
deriving DecidableEq, Repr

/-- Ticket status enum `['open', 'in_progress', 'resolved', 'closed']`
(`open` is a Lean keyword, hence `open_`). -/
inductive Status
  | open_
  | in_progress
  | resolved
  | closed
deriving DecidableEq, Repr

/-- Reopen-request status enum `['pending', 'approved', 'rejected']`. -/
inductive ReqStatus
  | pending
  | approved
  | rejected
deriving DecidableEq, Repr

/-- Activity-log action enum from the ticket schema. -/
inductive ActivityAction
  | created
  | updated
  | status_changed
  | assigned
  | reopened
  | reopen_requested
  | closed
deriving DecidableEq, Repr

/-- One embedded time entry (`timeEntries` array element of the ticket schema).
`duration` is minutes and defaults to `0` in the schema. -/
structure TimeEntry where
  description : String
  startTime : Int
  endTime : Option Int
  duration : Int
  user : UserId
  isActive : Bool
deriving DecidableEq, Repr

/-- The embedded `sla` subdocument: `targetTime` in hours, times in ms. -/
structure SLA where
  targetTime : Int
  startTime : Int
  endTime : Option Int
  isBreached : Bool
deriving DecidableEq, Repr

/-- One embedded reopen request. `rid` models the subdocument `_id`. -/
structure ReopenRequest where
  rid : Nat
  requestedBy : UserId
  reason : String
  status : ReqStatus
  reviewedBy : Option UserId
  reviewNote : Option String
  requestedAt : Int
  reviewedAt : Option Int
deriving DecidableEq, Repr

/-- One activity-log record. -/
structure ActivityEntry where
  action : ActivityAction
  user : UserId
  details : String
  timestamp : Int
deriving DecidableEq, Repr

/-- The Ticket document, restricted to the fields the verified operations
read or write (title/description/priority/category and other fields never
touched by those operations are omitted). -/
structure Ticket where
  ticketNumber : String
  status : Status
  assignee : Option UserId
  reporter : UserId
  estimatedTime : Int
  actualTime : Int
  timeEntries : List TimeEntry
  sla : SLA
  reopenRequests : List ReopenRequest
  activityLog : List ActivityEntry
deriving DecidableEq, Repr

/-! ### Access-control predicates (Ticket.js `canUser*` methods) -/

/-- `ticketSchema.methods.canUserClose` (Ticket.js lines 424-442). -/
def canUserClose (t : Ticket) (userId : UserId) (userRole : Role) : Bool :=
  if userRole = Role.admin ∨ userRole = Role.manager then
    true
  else if userRole = Role.agent then
    decide (t.assignee = some userId)
  else if userRole = Role.user then
    decide (t.reporter = userId) &&
      decide (t.status = Status.open_ ∨ t.status = Status.in_progress)
  else
    false

/-- `ticketSchema.methods.canUserEdit` (Ticket.js lines 445-463). -/
def canUserEdit (t : Ticket) (userId : UserId) (userRole : Role) : Bool :=
  if userRole = Role.admin ∨ userRole = Role.manager then
    true
  else if userRole = Role.agent then
    decide (t.assignee = some userId) ||
      decide (t.status = Status.open_ ∨ t.status = Status.in_progress)
  else if userRole = Role.user then
    false
  else
    false

/-- `ticketSchema.methods.canUserView` (Ticket.js lines 466-484). -/
def canUserView (t : Ticket) (userId : UserId) (userRole : Role) : Bool :=
  if userRole = Role.admin ∨ userRole = Role.manager then
    true
  else if userRole = Role.agent then
    decide (t.assignee = some userId) ||
      decide (t.status = Status.open_ ∨ t.status = Status.in_progress)
  else if userRole = Role.user then
    decide (t.reporter = userId)
  else
    false

/-- `ticketSchema.methods.canUserAddComments` (Ticket.js lines 487-506). -/
def canUserAddComments (t : Ticket) (userId : UserId) (userRole : Role) : Bool :=
  if userRole = Role.admin ∨ userRole = Role.manager then
    true
  else if userRole = Role.agent then
    decide (t.assignee = some userId) ||
      decide (t.status = Status.open_ ∨ t.status = Status.in_progress)
  else if userRole = Role.user then
    decide (t.reporter = userId) && decide (t.status ≠ Status.resolved)
  else
    false

/-- `ticketSchema.methods.canUserRequestReopen` (Ticket.js lines 509-516). -/
def canUserRequestReopen (t : Ticket) (userId : UserId) (userRole : Role) : Bool :=
  if userRole = Role.user then
    decide (t.reporter = userId) && decide (t.status = Status.closed)
  else
    false

/-! ### The role table of the specification (§4.2), stated from its words -/

/-- Spec table, "view" row. -/
def tableView (t : Ticket) (userId : UserId) (r : Role) : Bool :=
  match r with
  | Role.admin => true
  | Role.manager => true
  | Role.agent =>
      decide (t.assignee = some userId) ||
        decide (t.status = Status.open_) || decide (t.status = Status.in_progress)
  | Role.user => decide (t.reporter = userId)

/-- Spec table, "edit" row. -/
def tableEdit (t : Ticket) (userId : UserId) (r : Role) : Bool :=
  match r with
  | Role.admin => true
  | Role.manager => true
  | Role.agent =>
      decide (t.assignee = some userId) ||
        decide (t.status = Status.open_) || decide (t.status = Status.in_progress)
  | Role.user => false

/-- Spec table, "close" row. -/
def tableClose (t : Ticket) (userId : UserId) (r : Role) : Bool :=
  match r with
  | Role.admin => true
  | Role.manager => true
  | Role.agent => decide (t.assignee = some userId)
  | Role.user =>
      decide (t.reporter = userId) &&
        (decide (t.status = Status.open_) || decide (t.status = Status.in_progress))

/-- Spec table, "add comment" row. -/
def tableComment (t : Ticket) (userId : UserId) (r : Role) : Bool :=
  match r with
  | Role.admin => true
  | Role.manager => true
  | Role.agent =>
      decide (t.assignee = some userId) ||
        decide (t.status = Status.open_) || decide (t.status = Status.in_progress)
  | Role.user => decide (t.reporter = userId) && decide (t.status ≠ Status.resolved)

/-- Spec table, "request reopen" row: never allowed for staff. -/
def tableRequestReopen (t : Ticket) (userId : UserId) (r : Role) : Bool :=
  match r with
  | Role.admin => false
  | Role.manager => false
  | Role.agent => false
  | Role.user => decide (t.reporter = userId) && decide (t.status = Status.closed)

/-- C1: the five access-control predicates on a ticket exactly match the
role table of the specification, for every (userId, role, ticket state). -/
theorem accessControl_matches_role_table (t : Ticket) (uid : UserId) (r : Role) :
    canUserView t uid r = tableView t uid r ∧
    canUserEdit t uid r = tableEdit t uid r ∧
    canUserClose t uid r = tableClose t uid r ∧
    canUserAddComments t uid r = tableComment t uid r ∧
    canUserRequestReopen t uid r = tableRequestReopen t uid r := by
  cases r <;>
    simp [canUserView, canUserEdit, canUserClose, canUserAddComments,
      canUserRequestReopen, tableView, tableEdit, tableClose, tableComment,
      tableRequestReopen, or_assoc, Bool.and_comm, Bool.or_comm,
      Bool.and_assoc, Bool.or_assoc]

/-! ### Time tracking (Ticket.js `startTimeTracking`, `stopTimeTracking`,
`addTimeEntry`; tickets.js `POST /api/tickets/:id/time-entries`) -/

/-- JavaScript `Math.round (num / den)` for integers with `den > 0`:
`Math.round x = ⌊x + 1/2⌋`. -/
def jsRoundRatio (num den : Int) : Int :=
  Int.fdiv (2 * num + den) (2 * den)

/-- `Math.round((endTime - startTime) / (1000 * 60))` — minutes, rounded. -/
def minutesBetween (startT endT : Int) : Int :=
  jsRoundRatio (endT - startT) 60000

/-- The body of the `forEach` in `startTimeTracking` (Ticket.js 284-290):
an active entry is given an end time, a rounded duration, and deactivated. -/
def stopActiveEntry (now : Int) (e : TimeEntry) : TimeEntry :=
  if e.isActive then
    { e with endTime := some now,
             duration := minutesBetween e.startTime now,
             isActive := false }
  else e

/-- Sum of the `duration` fields, as in
`this.timeEntries.reduce((total, entry) => total + (entry.duration || 0), 0)`. -/
def sumDurations (l : List TimeEntry) : Int :=
  l.foldl (fun total e => total + e.duration) 0

/-- `ticketSchema.methods.startTimeTracking` (Ticket.js 282-302): stop all
active entries, then push a fresh active entry (schema default
`duration = 0`, no end time). Note the source does NOT recompute
`actualTime` here. -/
def startTimeTracking (t : Ticket) (userId : UserId) (description : String)
    (now : Int) : Ticket :=
  { t with timeEntries :=
      t.timeEntries.map (stopActiveEntry now) ++
        [{ description := description, startTime := now, endTime := none,
           duration := 0, user := userId, isActive := true }] }

/-- Deactivate the first active entry in place, mirroring the mutation of
the entry returned by `this.timeEntries.find(entry => entry.isActive)`. -/
def stopFirstActive (now : Int) : List TimeEntry → List TimeEntry
  | [] => []
  | e :: es =>
      if e.isActive then stopActiveEntry now e :: es
      else e :: stopFirstActive now es

/-- `ticketSchema.methods.stopTimeTracking` (Ticket.js 305-315): if an
active entry exists, close it and recompute `actualTime` as the sum of all
durations; otherwise leave the ticket unchanged. -/
def stopTimeTracking (t : Ticket) (now : Int) : Ticket :=
  match t.timeEntries.find? (fun e => e.isActive) with
  | some _ =>
      let entries := stopFirstActive now t.timeEntries
      { t with timeEntries := entries, actualTime := sumDurations entries }
  | none => t

/-- `ticketSchema.methods.addTimeEntry` (Ticket.js 275-279): push the entry
and recompute `actualTime`. -/
def addTimeEntry (t : Ticket) (entry : TimeEntry) : Ticket :=
  let entries := t.timeEntries ++ [entry]
  { t with timeEntries := entries, actualTime := sumDurations entries }

/-- The time entry built by `POST /api/tickets/:id/time-entries`
(tickets.js 455-465): `isActive: false`; when an end time is given the
duration is `duration || Math.round((end - start) / 60000)` (a supplied
duration of `0` falls through to the computed value, as `0` is falsy). -/
def buildManualTimeEntry (uid : UserId) (description : String)
    (startTime : Int) (endTime : Option Int) (duration : Option Int) :
    TimeEntry :=
  match endTime with
  | some e =>
      { description := description, startTime := startTime,
        endTime := some e,
        duration :=
          match duration with
          | some d => if d = 0 then minutesBetween startTime e else d
          | none => minutesBetween startTime e,
        user := uid, isActive := false }
  | none =>
      { description := description, startTime := startTime, endTime := none,
        duration := 0, user := uid, isActive := false }

/-- `POST /api/tickets/:id/time-entries` (tickets.js 455-469): push the
manual entry and recompute `actualTime` as the sum of all durations. -/
def addManualTimeEntryRoute (t : Ticket) (uid : UserId) (description : String)
    (startTime : Int) (endTime : Option Int) (duration : Option Int) :
    Ticket :=
  let entries := t.timeEntries ++
    [buildManualTimeEntry uid description startTime endTime duration]
  { t with timeEntries := entries, actualTime := sumDurations entries }

/-- Number of entries with `isActive = true`. -/
def countActive (l : List TimeEntry) : Nat :=
  l.countP (fun e => e.isActive)

/-! #### C3: `actualTime == sum(timeEntries[].duration)` -/

/-- A ticket whose single time entry has been actively tracked for ten
minutes, with `actualTime = 0` (consistent: the running entry's stored
`duration` is still the schema default `0`). -/
def ticketWithRunningEntry : Ticket :=
  { ticketNumber := "TICKET-000001", status := Status.in_progress,
    assignee := some 2, reporter := 1, estimatedTime := 0, actualTime := 0,
    timeEntries := [{ description := "first stint", startTime := 0,
                      endTime := none, duration := 0, user := 2,
                      isActive := true }],
    sla := { targetTime := 24, startTime := 0, endTime := none,
             isBreached := false },
    reopenRequests := [], activityLog := [] }

/-- C3: refuted on the source. `startTimeTracking` finalizes the duration
of a previously active entry (10 minutes here) but never recomputes
`actualTime`, so after the operation completes `actualTime = 0` while the
durations sum to `10`. (`stopTimeTracking` and the manual-entry route do
recompute the aggregate, and the spec asserts the invariant for all three
operations, so this is a slip in `startTimeTracking`.) -/
theorem startTimeTracking_leaves_actualTime_stale :
    (startTimeTracking ticketWithRunningEntry 2 "second stint" 600000).actualTime
        = 0 ∧
    sumDurations
        (startTimeTracking ticketWithRunningEntry 2 "second stint" 600000).timeEntries
        = 10 ∧
    (startTimeTracking ticketWithRunningEntry 2 "second stint" 600000).actualTime
        ≠ sumDurations
            (startTimeTracking ticketWithRunningEntry 2 "second stint" 600000).timeEntries := by
  refine ⟨rfl, ?_, ?_⟩ <;> decide

/-! #### C6: at most one active time entry -/

theorem stopActiveEntry_not_active (now : Int) (e : TimeEntry) :
    (stopActiveEntry now e).isActive = false := by
  by_cases h : e.isActive <;> simp [stopActiveEntry, h]

theorem countActive_stopAll (now : Int) (l : List TimeEntry) :
    countActive (l.map (stopActiveEntry now)) = 0 := by
  induction l with
  | nil => rfl
  | cons e es ih =>
      simp only [List.map_cons, countActive, List.countP_cons,
        stopActiveEntry_not_active] at *
      simpa using ih

theorem countActive_stopFirstActive_le (now : Int) (l : List TimeEntry) :
    countActive (stopFirstActive now l) ≤ countActive l := by
  induction l with
  | nil => simp [stopFirstActive]
  | cons e es ih =>
      by_cases h : e.isActive
      · simp [stopFirstActive, h, countActive, List.countP_cons,
          stopActiveEntry_not_active]
      · simp only [stopFirstActive, h, if_false, countActive,
          List.countP_cons, Bool.false_eq_true, decide_False]
        simpa [h] using ih

/-- C6: each time-tracking operation preserves "at most one active time
entry" (and `startTimeTracking` in fact leaves exactly one). -/
theorem timeTracking_preserves_at_most_one_active
    (t : Ticket) (uid : UserId) (description : String) (now startT : Int)
    (endT : Option Int) (dur : Option Int)
    (h : countActive t.timeEntries ≤ 1) :
    countActive (startTimeTracking t uid description now).timeEntries = 1 ∧
    countActive (stopTimeTracking t now).timeEntries ≤ 1 ∧
    countActive
        (addManualTimeEntryRoute t uid description startT endT dur).timeEntries
        ≤ 1 := by
  refine ⟨?_, ?_, ?_⟩
  · simp [startTimeTracking, countActive, List.countP_append]
    simpa [countActive] using countActive_stopAll now t.timeEntries
  · unfold stopTimeTracking
    cases t.timeEntries.find? (fun e => e.isActive) with
    | none => exact h
    | some e =>
        exact le_trans (countActive_stopFirstActive_le now t.timeEntries) h
  · have hb : (buildManualTimeEntry uid description startT endT dur).isActive
        = false := by
      cases endT <;> simp [buildManualTimeEntry]
    simp [addManualTimeEntryRoute, countActive, List.countP_append, hb]
    simpa [countActive] using h

/-- Witness for C6 at a concrete ticket satisfying the invariant. -/
theorem timeTracking_preserves_at_most_one_active_witness :
    countActive ticketWithRunningEntry.timeEntries ≤ 1 ∧
    countActive
        (startTimeTracking ticketWithRunningEntry 2 "again" 600000).timeEntries
        = 1 := by
  refine ⟨by decide, ?_⟩
  exact (timeTracking_preserves_at_most_one_active ticketWithRunningEntry 2
    "again" 600000 0 none none (by decide)).1

/-! ### Reopen request workflow (Ticket.js `approveReopen`, `rejectReopen`) -/

/-- `this.reopenRequests.id(requestId)`: the first subdocument whose `_id`
matches. -/
def findReopenRequest (t : Ticket) (requestId : Nat) : Option ReopenRequest :=
  t.reopenRequests.find? (fun r => decide (r.rid = requestId))

/-- Mongoose subdocument mutation: update the first element whose `_id`
matches, leave everything else in place. -/
def updateFirstRequest (requestId : Nat) (f : ReopenRequest → ReopenRequest) :
    List ReopenRequest → List ReopenRequest
  | [] => []
  | r :: rs =>
      if r.rid = requestId then f r :: rs
      else r :: updateFirstRequest requestId f rs

/-- The field mutation performed by `approveReopen` on a pending request. -/
def approveMutation (adminId : UserId) (reviewNote : String) (now : Int)
    (r : ReopenRequest) : ReopenRequest :=
  { r with status := ReqStatus.approved, reviewedBy := some adminId,
           reviewNote := some reviewNote, reviewedAt := some now }

/-- The field mutation performed by `rejectReopen` on a pending request. -/
def rejectMutation (adminId : UserId) (reviewNote : String) (now : Int)
    (r : ReopenRequest) : ReopenRequest :=
  { r with status := ReqStatus.rejected, reviewedBy := some adminId,
           reviewNote := some reviewNote, reviewedAt := some now }

/-- `ticketSchema.methods.approveReopen` (Ticket.js 377-399): if the
request exists and is pending, mark it approved, set the ticket status
back to `open`, append an activity entry and save; otherwise reject the
promise with `Error('Invalid reopen request')` (no mutation happens). -/
def approveReopen (t : Ticket) (adminId : UserId) (requestId : Nat)
    (reviewNote : String) (now : Int) : Except String Ticket :=
  match findReopenRequest t requestId with
  | some request =>
      if request.status = ReqStatus.pending then
        Except.ok
          { t with
            reopenRequests :=
              updateFirstRequest requestId
                (approveMutation adminId reviewNote now) t.reopenRequests,
            status := Status.open_,
            activityLog := t.activityLog ++
              [{ action := ActivityAction.reopened, user := adminId,
                 details := "Ticket reopened by admin: " ++ reviewNote,
                 timestamp := now }] }
      else Except.error "Invalid reopen request"
  | none => Except.error "Invalid reopen request"

/-- `ticketSchema.methods.rejectReopen` (Ticket.js 402-421): symmetric to
`approveReopen`, except the ticket status is left unchanged and the
activity action is `status_changed`. -/
def rejectReopen (t : Ticket) (adminId : UserId) (requestId : Nat)
    (reviewNote : String) (now : Int) : Except String Ticket :=
  match findReopenRequest t requestId with
  | some request =>
      if request.status = ReqStatus.pending then
        Except.ok
          { t with
            reopenRequests :=
              updateFirstRequest requestId
                (rejectMutation adminId reviewNote now) t.reopenRequests,
            activityLog := t.activityLog ++
              [{ action := ActivityAction.status_changed, user := adminId,
                 details := "Reopen request rejected: " ++ reviewNote,
                 timestamp := now }] }
      else Except.error "Invalid reopen request"
  | none => Except.error "Invalid reopen request"

theorem find?_updateFirstRequest (l : List ReopenRequest) (requestId : Nat)
    (f : ReopenRequest → ReopenRequest) (hf : ∀ r, (f r).rid = r.rid) :
    (updateFirstRequest requestId f l).find? (fun r => decide (r.rid = requestId))
      = (l.find? (fun r => decide (r.rid = requestId))).map f := by
  induction l with
  | nil => simp [updateFirstRequest]
  | cons r rs ih =>
      by_cases h : r.rid = requestId
      · simp [updateFirstRequest, h, List.find?, hf]
      · simp [updateFirstRequest, h, List.find?, ih]

/-- C2: a reopen request's status is set exactly once. When the request id
is absent or the request is no longer pending, `approveReopen` and
`rejectReopen` fail with the `Invalid reopen request` error and return no
mutated ticket; on a pending request they record decision, reviewer, note
and review timestamp, and every later `approveReopen`/`rejectReopen` call
on the same request fails. -/
theorem reopenRequest_decided_exactly_once (t : Ticket) (adminId otherAdmin : UserId)
    (requestId : Nat) (note note2 : String) (now later : Int) :
    (findReopenRequest t requestId = none →
      approveReopen t adminId requestId note now = Except.error "Invalid reopen request" ∧
      rejectReopen t adminId requestId note now = Except.error "Invalid reopen request") ∧
    (∀ r, findReopenRequest t requestId = some r → r.status ≠ ReqStatus.pending →
      approveReopen t adminId requestId note now = Except.error "Invalid reopen request" ∧
      rejectReopen t adminId requestId note now = Except.error "Invalid reopen request") ∧
    (∀ r, findReopenRequest t requestId = some r → r.status = ReqStatus.pending →
      (∃ t', approveReopen t adminId requestId note now = Except.ok t' ∧
        findReopenRequest t' requestId =
          some { r with status := ReqStatus.approved, reviewedBy := some adminId,
                        reviewNote := some note, reviewedAt := some now } ∧
        t'.status = Status.open_ ∧
        approveReopen t' otherAdmin requestId note2 later
          = Except.error "Invalid reopen request" ∧
        rejectReopen t' otherAdmin requestId note2 later
          = Except.error "Invalid reopen request") ∧
      (∃ t', rejectReopen t adminId requestId note now = Except.ok t' ∧
        findReopenRequest t' requestId =
          some { r with status := ReqStatus.rejected, reviewedBy := some adminId,
                        reviewNote := some note, reviewedAt := some now } ∧
        t'.status = t.status ∧
        approveReopen t' otherAdmin requestId note2 later
          = Except.error "Invalid reopen request" ∧
        rejectReopen t' otherAdmin requestId note2 later
          = Except.error "Invalid reopen request")) := by
  refine ⟨?_, ?_, ?_⟩
  · intro hnone
    constructor <;> simp [approveReopen, rejectReopen, hnone]
  · intro r hr hst
    constructor <;> simp [approveReopen, rejectReopen, hr, hst]
  · intro r hr hst
    have hr' : List.find? (fun x => decide (x.rid = requestId)) t.reopenRequests
        = some r := hr
    have hokA : approveReopen t adminId requestId note now = Except.ok
        { t with
          reopenRequests :=
            updateFirstRequest requestId
              (approveMutation adminId note now) t.reopenRequests,
          status := Status.open_,
          activityLog := t.activityLog ++
            [{ action := ActivityAction.reopened, user := adminId,
               details := "Ticket reopened by admin: " ++ note,
               timestamp := now }] } := by
      simp [approveReopen, hr, hst]
    have hfindA : findReopenRequest
        { t with
          reopenRequests :=
            updateFirstRequest requestId
              (approveMutation adminId note now) t.reopenRequests,
          status := Status.open_,
          activityLog := t.activityLog ++
            [{ action := ActivityAction.reopened, user := adminId,
               details := "Ticket reopened by admin: " ++ note,
               timestamp := now }] } requestId
        = some (approveMutation adminId note now r) := by
      show (updateFirstRequest requestId
          (approveMutation adminId note now) t.reopenRequests).find?
          (fun x => decide (x.rid = requestId)) = _
      rw [find?_updateFirstRequest t.reopenRequests requestId
        (approveMutation adminId note now) (fun x => rfl), hr']
      rfl
    have hokR : rejectReopen t adminId requestId note now = Except.ok
        { t with
          reopenRequests :=
            updateFirstRequest requestId
              (rejectMutation adminId note now) t.reopenRequests,
          activityLog := t.activityLog ++
            [{ action := ActivityAction.status_changed, user := adminId,
               details := "Reopen request rejected: " ++ note,
               timestamp := now }] } := by
      simp [rejectReopen, hr, hst]
    have hfindR : findReopenRequest
        { t with
          reopenRequests :=
            updateFirstRequest requestId
              (rejectMutation adminId note now) t.reopenRequests,
          activityLog := t.activityLog ++
            [{ action := ActivityAction.status_changed, user := adminId,
               details := "Reopen request rejected: " ++ note,
               timestamp := now }] } requestId
        = some (rejectMutation adminId note now r) := by
      show (updateFirstRequest requestId
          (rejectMutation adminId note now) t.reopenRequests).find?
          (fun x => decide (x.rid = requestId)) = _
      rw [find?_updateFirstRequest t.reopenRequests requestId
        (rejectMutation adminId note now) (fun x => rfl), hr']
      rfl
    constructor
    · refine ⟨_, hokA, ?_, rfl, ?_, ?_⟩
      · simpa [approveMutation] using hfindA
      · simp [approveReopen, hfindA, approveMutation]
      · simp [rejectReopen, hfindA, approveMutation]
    · refine ⟨_, hokR, ?_, rfl, ?_, ?_⟩
      · simpa [rejectMutation] using hfindR
      · simp [approveReopen, hfindR, rejectMutation]
      · simp [rejectReopen, hfindR, rejectMutation]

/-- A closed ticket holding one pending reopen request, for witnesses. -/
def ticketWithPendingReopen : Ticket :=
  { ticketNumber := "TICKET-000002", status := Status.closed,
    assignee := some 2, reporter := 1, estimatedTime := 0, actualTime := 0,
    timeEntries := [],
    sla := { targetTime := 24, startTime := 0, endTime := none,
             isBreached := false },
    reopenRequests := [{ rid := 10, requestedBy := 1, reason := "still broken",
                         status := ReqStatus.pending, reviewedBy := none,
                         reviewNote := none, requestedAt := 0,
                         reviewedAt := none }],
    activityLog := [] }

/-- Witness for C2 on a concrete pending request: approving it reopens
the ticket, and approving again fails. -/
theorem reopenRequest_decided_exactly_once_witness :
    (approveReopen ticketWithPendingReopen 3 10 "ok" 5).map (fun u => u.status)
      = Except.ok Status.open_ ∧
    (approveReopen ticketWithPendingReopen 3 10 "ok" 5).bind
        (fun u => approveReopen u 4 10 "again" 6)
      = Except.error "Invalid reopen request" := by
  have h := (reopenRequest_decided_exactly_once ticketWithPendingReopen 3 4
      10 "ok" "again" 5 6).2.2
    { rid := 10, requestedBy := 1, reason := "still broken",
      status := ReqStatus.pending, reviewedBy := none, reviewNote := none,
      requestedAt := 0, reviewedAt := none } rfl rfl
  obtain ⟨⟨t', hok, -, hstat, happ, -⟩, -⟩ := h
  constructor
  · rw [hok]
    simp [Except.map, hstat]
  · rw [hok]
    simpa [Except.bind] using happ

/-! ### SLA monitor -/

/-- The breach test `elapsedHours > targetTime` where
`elapsedHours = (now - startTime) / (1000*60*60)`; with exact rational
division this is `now - startTime > targetTime * 3600000`. -/
def slaBreachedCalc (now : Int) (s : SLA) : Bool :=
  decide (now - s.startTime > s.targetTime * 3600000)

/-- `ticketSchema.methods.updateSLAStatus` (Ticket.js 262-272): on a
closed/resolved ticket, set `sla.endTime := now` and force
`isBreached := false`; on an active ticket recompute the breach flag. -/
def updateSLAStatus (t : Ticket) (now : Int) : Ticket :=
  if t.status = Status.closed ∨ t.status = Status.resolved then
    { t with sla := { t.sla with endTime := some now, isBreached := false } }
  else
    { t with sla := { t.sla with isBreached := slaBreachedCalc now t.sla } }

/-- The inline SLA refresh performed when a ticket is read
(`GET /api/tickets/:id`, tickets.js 182-187; the list route does the same
per ticket): active tickets get a recomputed breach flag, resolved/closed
tickets are returned as stored. -/
def readTicketSLARefresh (t : Ticket) (now : Int) : Ticket :=
  if t.status ≠ Status.closed ∧ t.status ≠ Status.resolved then
    { t with sla := { t.sla with isBreached := slaBreachedCalc now t.sla } }
  else t

/-- C5: SLA breach is derived. Reading an open/in-progress ticket
recomputes `isBreached` as elapsed-hours-vs-target; the transition-side
SLA handler (`updateSLAStatus` on a resolved/closed ticket) sets
`sla.endTime := now`, forces `isBreached := false` — even if the flag was
`true` while active — and every subsequent read or recompute keeps it
`false`. -/
theorem sla_breach_derived_and_forgiven (t : Ticket) (now later : Int) :
    (t.status = Status.open_ ∨ t.status = Status.in_progress →
      (readTicketSLARefresh t now).sla.isBreached
        = decide (now - t.sla.startTime > t.sla.targetTime * 3600000)) ∧
    (t.status = Status.resolved ∨ t.status = Status.closed →
      (updateSLAStatus t now).sla.endTime = some now ∧
      (updateSLAStatus t now).sla.isBreached = false ∧
      (readTicketSLARefresh (updateSLAStatus t now) later).sla.isBreached
        = false ∧
      (updateSLAStatus (updateSLAStatus t now) later).sla.isBreached
        = false) := by
  constructor
  · intro h
    rcases h with h | h <;>
      simp [readTicketSLARefresh, updateSLAStatus, slaBreachedCalc, h]
  · intro h
    rcases h with h | h <;>
      simp [readTicketSLARefresh, updateSLAStatus, h]

/-- An in-progress ticket with a 24-hour target whose SLA clock started 25
hours before the read (25h = 90000000 ms), breached while active. -/
def ticketBreachedActive : Ticket :=
  { ticketNumber := "TICKET-000003", status := Status.in_progress,
    assignee := some 2, reporter := 1, estimatedTime := 0, actualTime := 0,
    timeEntries := [],
    sla := { targetTime := 24, startTime := 0, endTime := none,
             isBreached := false },
    reopenRequests := [], activityLog := [] }

/-- Witness for C5: the 25h/24h ticket reads as breached while active;
after it is resolved, the SLA handler stamps the end time and the flag is
false and stays false on a later read. -/
theorem sla_breach_derived_and_forgiven_witness :
    (readTicketSLARefresh ticketBreachedActive 90000000).sla.isBreached = true ∧
    ((updateSLAStatus { ticketBreachedActive with status := Status.resolved }
        90000000).sla.endTime = some 90000000 ∧
      (updateSLAStatus { ticketBreachedActive with status := Status.resolved }
        90000000).sla.isBreached = false ∧
      (readTicketSLARefresh
          (updateSLAStatus { ticketBreachedActive with status := Status.resolved }
            90000000) 100000000).sla.isBreached = false) := by
  constructor
  · have h := (sla_breach_derived_and_forgiven ticketBreachedActive
      90000000 100000000).1 (Or.inr rfl)
    rw [h]
    decide
  · have h := (sla_breach_derived_and_forgiven
      { ticketBreachedActive with status := Status.resolved }
      90000000 100000000).2 (Or.inl rfl)
    exact ⟨h.1, h.2.1, h.2.2.1⟩

/-! ### Comment creation entry points (tickets.js `POST /:id/comments`,
comments.js `POST /`) -/

/-- `['admin', 'manager', 'agent'].includes(role)`. -/
def isStaff (r : Role) : Bool :=
  decide (r = Role.admin) || decide (r = Role.manager) || decide (r = Role.agent)

/-- A stored comment: author, content, internal flag. -/
structure CommentRec where
  author : UserId
  content : String
  isInternal : Bool
deriving DecidableEq, Repr

/-- The synthetic status-changed comment both entry points create. -/
def autoStatusComment (uid : UserId) : CommentRec :=
  { author := uid,
    content := "**System Update:** Status changed from open to in_progress",
    isInternal := false }

/-- `POST /api/tickets/:id/comments` (tickets.js 949-1024): gate on
`canUserAddComments`, staff-only internal comments, save the comment, and
auto-transition to `in_progress` — appending the synthetic comment — only
when the ticket was `open` AND the author is staff. Result: the ticket
after the request and the comments created by it, or an HTTP error code. -/
def postCommentTicketsRoute (t : Ticket) (uid : UserId) (r : Role)
    (content : String) (internal : Bool) :
    Except Nat (Ticket × List CommentRec) :=
  if !(canUserAddComments t uid r) then Except.error 403
  else if internal && !(isStaff r) then Except.error 403
  else if t.status = Status.open_ ∧ isStaff r = true then
    Except.ok ({ t with status := Status.in_progress },
      [{ author := uid, content := content, isInternal := internal },
        autoStatusComment uid])
  else
    Except.ok (t, [{ author := uid, content := content, isInternal := internal }])

/-- `POST /api/comments` (comments.js 62-121): gate on `canUserView`,
staff-only internal comments, save the comment, and auto-transition to
`in_progress` — appending the synthetic comment — whenever the ticket was
`open`, with NO role condition on the author. -/
def postCommentCommentsRoute (t : Ticket) (uid : UserId) (r : Role)
    (content : String) (internal : Bool) :
    Except Nat (Ticket × List CommentRec) :=
  if !(canUserView t uid r) then Except.error 403
  else if internal && !(isStaff r) then Except.error 403
  else if t.status = Status.open_ then
    Except.ok ({ t with status := Status.in_progress },
      [{ author := uid, content := content, isInternal := internal },
        autoStatusComment uid])
  else
    Except.ok (t, [{ author := uid, content := content, isInternal := internal }])

/-- An open ticket reported by user 5, unassigned. -/
def openTicketOfUser5 : Ticket :=
  { ticketNumber := "TICKET-000004", status := Status.open_,
    assignee := none, reporter := 5, estimatedTime := 0, actualTime := 0,
    timeEntries := [],
    sla := { targetTime := 24, startTime := 0, endTime := none,
             isBreached := false },
    reopenRequests := [], activityLog := [] }

/-- C4 counterexample: the two comment-creation entry points do NOT behave
identically. The reporter (role `user`, not staff) comments on their own
open ticket: `POST /api/tickets/:id/comments` accepts the comment and
leaves the status `open`, while `POST /api/comments` accepts it and
transitions the ticket to `in_progress`; the transition therefore also
occurs for a non-staff author. -/
theorem comment_routes_disagree_for_reporter :
    (postCommentTicketsRoute openTicketOfUser5 5 Role.user "any update?" false).map
        (fun p => p.1.status) = Except.ok Status.open_ ∧
    (postCommentCommentsRoute openTicketOfUser5 5 Role.user "any update?" false).map
        (fun p => p.1.status) = Except.ok Status.in_progress := by
  constructor <;> rfl

theorem canUserAddComments_eq_view_of_staff (t : Ticket) (uid : UserId)
    (r : Role) (h : isStaff r = true) :
    canUserAddComments t uid r = canUserView t uid r := by
  cases r <;> simp_all [isStaff, canUserAddComments, canUserView]

theorem postCommentTicketsRoute_accepted (t : Ticket) (uid : UserId) (r : Role)
    (content : String) (internal : Bool)
    (h1 : canUserAddComments t uid r = true)
    (h2 : internal = true → isStaff r = true) :
    postCommentTicketsRoute t uid r content internal =
      if t.status = Status.open_ ∧ isStaff r = true then
        Except.ok ({ t with status := Status.in_progress },
          [{ author := uid, content := content, isInternal := internal },
            autoStatusComment uid])
      else
        Except.ok (t, [{ author := uid, content := content,
                         isInternal := internal }]) := by
  cases internal with
  | false => simp [postCommentTicketsRoute, h1]
  | true => simp [postCommentTicketsRoute, h1, h2 rfl]

theorem postCommentCommentsRoute_accepted (t : Ticket) (uid : UserId) (r : Role)
    (content : String) (internal : Bool)
    (h1 : canUserView t uid r = true)
    (h2 : internal = true → isStaff r = true) :
    postCommentCommentsRoute t uid r content internal =
      if t.status = Status.open_ then
        Except.ok ({ t with status := Status.in_progress },
          [{ author := uid, content := content, isInternal := internal },
            autoStatusComment uid])
      else
        Except.ok (t, [{ author := uid, content := content,
                         isInternal := internal }]) := by
  cases internal with
  | false => simp [postCommentCommentsRoute, h1]
  | true => simp [postCommentCommentsRoute, h1, h2 rfl]

/-- C4 amended: on an accepted comment, `POST /api/tickets/:id/comments`
auto-transitions exactly when the ticket was `open` and the author is
staff, while `POST /api/comments` auto-transitions whenever the ticket was
`open`, regardless of role. Hence the two entry points agree for staff
authors but diverge for a non-staff reporter commenting on their own open
ticket. -/
theorem comment_routes_autoTransition_characterized (t : Ticket)
    (uid : UserId) (r : Role) (content : String) (internal : Bool) :
    (canUserAddComments t uid r = true → (internal = true → isStaff r = true) →
      postCommentTicketsRoute t uid r content internal =
        if t.status = Status.open_ ∧ isStaff r = true then
          Except.ok ({ t with status := Status.in_progress },
            [{ author := uid, content := content, isInternal := internal },
              autoStatusComment uid])
        else
          Except.ok (t, [{ author := uid, content := content,
                           isInternal := internal }])) ∧
    (canUserView t uid r = true → (internal = true → isStaff r = true) →
      postCommentCommentsRoute t uid r content internal =
        if t.status = Status.open_ then
          Except.ok ({ t with status := Status.in_progress },
            [{ author := uid, content := content, isInternal := internal },
              autoStatusComment uid])
        else
          Except.ok (t, [{ author := uid, content := content,
                           isInternal := internal }])) ∧
    (isStaff r = true →
      postCommentTicketsRoute t uid r content internal
        = postCommentCommentsRoute t uid r content internal) ∧
    (isStaff r = false → canUserView t uid r = true →
      t.status = Status.open_ → internal = false →
      postCommentTicketsRoute t uid r content internal =
        Except.ok (t, [{ author := uid, content := content,
                         isInternal := false }]) ∧
      postCommentCommentsRoute t uid r content internal =
        Except.ok ({ t with status := Status.in_progress },
          [{ author := uid, content := content, isInternal := false },
            autoStatusComment uid])) := by
  refine ⟨postCommentTicketsRoute_accepted t uid r content internal,
    postCommentCommentsRoute_accepted t uid r content internal, ?_, ?_⟩
  · intro h
    have hg := canUserAddComments_eq_view_of_staff t uid r h
    simp [postCommentTicketsRoute, postCommentCommentsRoute, hg, h]
  · intro hs hv hop hi
    have hru : r = Role.user := by
      cases r <;> simp_all [isStaff]
    subst hru hi
    have hadd : canUserAddComments t uid Role.user = true := by
      simp only [canUserView] at hv
      simp only [canUserAddComments]
      simp only [show (Role.user = Role.admin ∨ Role.user = Role.manager)
          = False by simp, show (Role.user = Role.agent) = False by simp] at *
      simp_all [hop]
    constructor
    · rw [postCommentTicketsRoute_accepted t uid Role.user content false hadd
        (by intro h; cases h)]
      simp [isStaff]
    · rw [postCommentCommentsRoute_accepted t uid Role.user content false hv
        (by intro h; cases h)]
      simp [hop]

/-- Witness for C4's amended theorem, discharging its hypotheses at
concrete inputs: the staff-agreement clause at an admin, and the
divergence clause at the reporter of `openTicketOfUser5`. -/
theorem comment_routes_autoTransition_characterized_witness :
    (postCommentTicketsRoute openTicketOfUser5 9 Role.admin "on it" false
      = postCommentCommentsRoute openTicketOfUser5 9 Role.admin "on it" false) ∧
    postCommentCommentsRoute openTicketOfUser5 5 Role.user "ping" false =
      Except.ok ({ openTicketOfUser5 with status := Status.in_progress },
        [{ author := 5, content := "ping", isInternal := false },
          autoStatusComment 5]) := by
  constructor
  · exact (comment_routes_autoTransition_characterized openTicketOfUser5 9
      Role.admin "on it" false).2.2.1 (by decide)
  · exact ((comment_routes_autoTransition_characterized openTicketOfUser5 5
      Role.user "ping" false).2.2.2 (by decide) (by decide) rfl rfl).2

/-! ### Internal-comment redaction on the two comment-listing endpoints -/

/-- The populated author fields (`firstName lastName email avatar`). -/
structure AuthorInfo where
  firstName : String
  lastName : String
  email : String
  avatar : String
deriving DecidableEq, Repr

/-- A comment as served by the listing endpoints. -/
structure CommentDoc where
  author : AuthorInfo
  content : String
  isInternal : Bool
  createdAt : Int
deriving DecidableEq, Repr

/-- The neutral author substituted by comments.js. -/
def systemAuthor : AuthorInfo :=
  { firstName := "System", lastName := "", email := "system@infrasync.com",
    avatar := "" }

/-- `GET /api/comments/ticket/:ticketId` filter (comments.js 36-50): for a
non-staff viewer, an internal comment keeps its timestamp but has BOTH its
content and its author replaced. -/
def redactCommentsRoute (viewerRole : Role) (cs : List CommentDoc) :
    List CommentDoc :=
  cs.map fun c =>
    if c.isInternal && !(isStaff viewerRole) then
      { c with content := "[Internal comment - not visible to customers]",
               author := systemAuthor }
    else c

/-- `GET /api/tickets/:id/comments` filter (tickets.js 930-940): for a
non-staff viewer, an internal comment has its content replaced but its
author (and everything else) kept. -/
def redactTicketsRoute (viewerRole : Role) (cs : List CommentDoc) :
    List CommentDoc :=
  cs.map fun c =>
    if c.isInternal && !(isStaff viewerRole) then
      { c with content := "[Internal Comment - Not Visible]" }
    else c

/-- A staff-authored internal comment. -/
def internalCommentByAlice : CommentDoc :=
  { author := { firstName := "Alice", lastName := "Agent",
                email := "alice@example.com", avatar := "" },
    content := "customer is wrong", isInternal := true, createdAt := 42 }

/-- C8 counterexample: the ticket-route listing does NOT replace the
author of an internal comment for a non-staff viewer — the original
author identity appears in the response (only the content is masked),
while the comments-route listing replaces both. -/
theorem ticketsRoute_keeps_internal_author :
    (redactTicketsRoute Role.user [internalCommentByAlice]).map
        (fun c => c.author)
      = [internalCommentByAlice.author] ∧
    internalCommentByAlice.author ≠ systemAuthor ∧
    (redactCommentsRoute Role.user [internalCommentByAlice]).map
        (fun c => c.author) = [systemAuthor] := by
  refine ⟨rfl, ?_, rfl⟩
  decide

/-- C8 amended: for a non-staff viewer, the comments-route listing
replaces both content and author of every internal comment with the
neutral placeholders, while the tickets-route listing replaces the content
only and keeps the original author; both leave non-internal comments
unchanged. -/
theorem internal_comment_redaction_characterized (viewerRole : Role)
    (cs : List CommentDoc) (hv : isStaff viewerRole = false) :
    redactCommentsRoute viewerRole cs = cs.map (fun c =>
      if c.isInternal then
        { c with content := "[Internal comment - not visible to customers]",
                 author := systemAuthor }
      else c) ∧
    redactTicketsRoute viewerRole cs = cs.map (fun c =>
      if c.isInternal then
        { c with content := "[Internal Comment - Not Visible]" }
      else c) ∧
    ∀ c ∈ redactTicketsRoute viewerRole cs,
      ∃ c₀ ∈ cs, c.author = c₀.author := by
  refine ⟨?_, ?_, ?_⟩
  · simp [redactCommentsRoute, hv]
  · simp [redactTicketsRoute, hv]
  · intro c hc
    simp only [redactTicketsRoute, List.mem_map] at hc
    obtain ⟨c₀, hc₀, heq⟩ := hc
    refine ⟨c₀, hc₀, ?_⟩
    by_cases h : c₀.isInternal && !(isStaff viewerRole) <;>
      simp [h] at heq <;> simp [← heq]

/-- Witness for C8's amended theorem at a non-staff viewer. -/
theorem internal_comment_redaction_characterized_witness :
    isStaff Role.user = false ∧
    redactTicketsRoute Role.user [internalCommentByAlice] =
      [{ internalCommentByAlice with
          content := "[Internal Comment - Not Visible]" }] := by
  refine ⟨rfl, ?_⟩
  rw [(internal_comment_redaction_characterized Role.user
    [internalCommentByAlice] rfl).2.1]
  rfl

/-! ### User model (src/unnamed/part_001): subscription resolution and
JSON serialization -/

/-- Subscription tiers `['free', 'basic', 'premium', 'enterprise']`. -/
inductive Tier
  | free
  | basic
  | premium
  | enterprise
deriving DecidableEq, Repr

/-- The company `subscription` subdocument, as read by
`getEffectiveSubscription` (`company.subscription && company.subscription.plan`):
either field may be missing on a raw document. -/
structure CompanySubscription where
  plan : Option Tier
deriving DecidableEq, Repr

/-- A company record, restricted to what subscription resolution reads. -/
structure Company where
  subscription : Option CompanySubscription
deriving DecidableEq, Repr

/-- A user record, restricted to the fields the verified operations use.
`subscription = none` models an absent field (falsy in
`this.subscription && ...`). -/
structure User where
  firstName : String
  lastName : String
  email : String
  password : String
  role : Role
  subscription : Option Tier
  company : Option Nat
  apiKey : Option String
  isActive : Bool
deriving DecidableEq, Repr

/-- `userSchema.methods.getEffectiveSubscription` (part_001 lines 133-147):
the user's own tier when present and not `free`; else the referenced
company's `subscription.plan` when the lookup finds one; else `'free'`.
`findCompany` stands for `Company.findById`. -/
def getEffectiveSubscription (findCompany : Nat → Option Company)
    (u : User) : Tier :=
  match u.subscription with
  | some s =>
      if s ≠ Tier.free then s
      else companyPlanFallback findCompany u
  | none => companyPlanFallback findCompany u
where
  companyPlanFallback (findCompany : Nat → Option Company) (u : User) :
      Tier :=
    match u.company with
    | some cid =>
        match findCompany cid with
        | some c =>
            match c.subscription with
            | some sub =>
                match sub.plan with
                | some p => p
                | none => Tier.free
            | none => Tier.free
        | none => Tier.free
    | none => Tier.free

/-- C7: `getEffectiveSubscription` returns the user's own tier when
present and not `free`; otherwise the found company plan; otherwise
`free` with no error (the function is total); and recomputation without
intervening writes is idempotent. -/
theorem getEffectiveSubscription_spec (findCompany : Nat → Option Company)
    (u : User) :
    (∀ s, u.subscription = some s → s ≠ Tier.free →
      getEffectiveSubscription findCompany u = s) ∧
    (u.subscription = none ∨ u.subscription = some Tier.free →
      (∀ cid c sub p, u.company = some cid → findCompany cid = some c →
        c.subscription = some sub → sub.plan = some p →
        getEffectiveSubscription findCompany u = p) ∧
      (u.company = none → getEffectiveSubscription findCompany u = Tier.free) ∧
      (∀ cid, u.company = some cid → findCompany cid = none →
        getEffectiveSubscription findCompany u = Tier.free)) ∧
    getEffectiveSubscription findCompany u
      = getEffectiveSubscription findCompany u := by
  refine ⟨?_, ?_, rfl⟩
  · intro s hs hfree
    simp [getEffectiveSubscription, hs, hfree]
  · intro hown
    have hfall : getEffectiveSubscription findCompany u
        = getEffectiveSubscription.companyPlanFallback findCompany u := by
      rcases hown with h | h <;> simp [getEffectiveSubscription, h]
    refine ⟨?_, ?_, ?_⟩
    · intro cid c sub p hcid hc hsub hp
      rw [hfall]
      simp [getEffectiveSubscription.companyPlanFallback, hcid, hc, hsub, hp]
    · intro hnone
      rw [hfall]
      simp [getEffectiveSubscription.companyPlanFallback, hnone]
    · intro cid hcid hc
      rw [hfall]
      simp [getEffectiveSubscription.companyPlanFallback, hcid, hc]

/-- A free-tier user in company 1, for witnesses. -/
def freeUserInCompany1 : User :=
  { firstName := "Uma", lastName := "User", email := "uma@example.com",
    password := "hashed-pw", role := Role.user,
    subscription := some Tier.free, company := some 1, apiKey := none,
    isActive := true }

/-- A one-company directory: company 1 has a premium plan. -/
def premiumCompanyDirectory : Nat → Option Company := fun cid =>
  if cid = 1 then some { subscription := some { plan := some Tier.premium } }
  else none

/-- Witness for C7: a free-tier user inherits company 1's premium plan,
and a dangling company reference soft-fails to `free`. -/
theorem getEffectiveSubscription_spec_witness :
    getEffectiveSubscription premiumCompanyDirectory freeUserInCompany1
      = Tier.premium ∧
    getEffectiveSubscription premiumCompanyDirectory
      { freeUserInCompany1 with company := some 2 } = Tier.free := by
  constructor
  · exact ((getEffectiveSubscription_spec premiumCompanyDirectory
      freeUserInCompany1).2.1 (Or.inr rfl)).1 1
      { subscription := some { plan := some Tier.premium } }
      { plan := some Tier.premium } Tier.premium rfl rfl rfl rfl
  · exact ((getEffectiveSubscription_spec premiumCompanyDirectory
      { freeUserInCompany1 with company := some 2 }).2.1 (Or.inr rfl)).2.2 2
      rfl rfl

/-! #### `toJSON` (part_001 lines 167-172) -/

/-- String rendering of a role, as stored in the document. -/
def roleKeyString (r : Role) : String :=
  match r with
  | Role.admin => "admin"
  | Role.manager => "manager"
  | Role.agent => "agent"
  | Role.user => "user"

/-- String rendering of a tier, as stored in the document. -/
def tierKeyString (s : Tier) : String :=
  match s with
  | Tier.free => "free"
  | Tier.basic => "basic"
  | Tier.premium => "premium"
  | Tier.enterprise => "enterprise"

/-- `this.toObject()`: the document as a key/value list. Optional fields
appear only when set, exactly as on a Mongo document. -/
def User.toObject (u : User) : List (String × String) :=
  [("firstName", u.firstName), ("lastName", u.lastName),
   ("email", u.email), ("password", u.password),
   ("role", roleKeyString u.role)] ++
  (match u.subscription with
   | some s => [("subscription", tierKeyString s)]
   | none => []) ++
  (match u.company with
   | some cid => [("company", toString cid)]
   | none => []) ++
  (match u.apiKey with
   | some k => [("apiKey", k)]
   | none => []) ++
  [("isActive", if u.isActive then "true" else "false")]

/-- `userSchema.methods.toJSON`: take the plain object and
`delete user.password; delete user.apiKey`. -/
def User.toJSON (u : User) : List (String × String) :=
  u.toObject.filter (fun kv => !(kv.1 = "password" || kv.1 = "apiKey"))

/-- C10: the JSON serialization of any user contains neither a `password`
entry nor an `apiKey` entry, while every other entry of the raw object is
kept verbatim. -/
theorem toJSON_strips_password_and_apiKey (u : User) :
    (∀ kv ∈ u.toJSON, kv.1 ≠ "password" ∧ kv.1 ≠ "apiKey") ∧
    (∀ kv ∈ u.toObject, kv.1 ≠ "password" → kv.1 ≠ "apiKey" →
      kv ∈ u.toJSON) := by
  constructor
  · intro kv hkv
    have := List.of_mem_filter hkv
    constructor <;> intro h <;> simp [h] at this
  · intro kv hkv h1 h2
    exact List.mem_filter.mpr ⟨hkv, by simp [h1, h2]⟩

/-- Witness for C10 at a concrete user carrying both secrets: ordinary
entries survive serialization (the theorem's kept-entry clause applied
with its hypotheses discharged), and neither stripped key does. -/
theorem toJSON_strips_password_and_apiKey_witness :
    ("email", "uma@example.com")
      ∈ ({ freeUserInCompany1 with apiKey := some "sk-123" } : User).toJSON ∧
    ("role", "user")
      ∈ ({ freeUserInCompany1 with apiKey := some "sk-123" } : User).toJSON := by
  constructor <;>
    exact (toJSON_strips_password_and_apiKey
        { freeUserInCompany1 with apiKey := some "sk-123" }).2 _
      (by decide) (by decide) (by decide)

/-! ### Ticket number generation (`ticketSchema.pre('save')`, Ticket.js
239-259).

The generation query `findOne({}, {}, { sort: { ticketNumber: -1 } })`
returns the ticket whose number string is greatest in the store's
lexicographic (byte-wise, equivalently code-point-wise) order. The hook
then strips the `TICKET-` tag, `parseInt`s the rest, increments, and
zero-pads to six digits; on query failure it falls back to
`Date.now().toString().padStart(6, '0')`. -/

/-- Code-point lexicographic comparison of char lists (the BSON string
sort order used by the `ticketNumber: -1` sort, reversed). -/
def charListLt : List Char → List Char → Bool
  | [], [] => false
  | [], _ :: _ => true
  | _ :: _, [] => false
  | a :: as, b :: bs =>
      if a.toNat < b.toNat then true
      else if b.toNat < a.toNat then false
      else charListLt as bs

/-- Lexicographic order on strings (code points). -/
def strLtB (s t : String) : Bool := charListLt s.data t.data

/-- The number string of the ticket returned by the descending-sort
`findOne`: the lexicographically greatest element. -/
def maxTicketNumber : List String → Option String
  | [] => none
  | s :: rest =>
      some (rest.foldl (fun acc x => if strLtB acc x then x else acc) s)

/-- ASCII decimal digit test. -/
def isDigitChar (c : Char) : Bool := 48 ≤ c.toNat && c.toNat ≤ 57

/-- The maximal leading run of decimal digits (what `parseInt` consumes;
sign and whitespace handling is irrelevant here, ticket numbers contain
neither). -/
def leadingDigits : List Char → List Char
  | [] => []
  | c :: cs => if isDigitChar c then c :: leadingDigits cs else []

/-- Numeric value of a digit string (big-endian). -/
def digitsToNat : List Char → Nat
  | [] => 0
  | c :: cs => (c.toNat - 48) * 10 ^ cs.length + digitsToNat cs

/-- `parseInt(s)`: `NaN` (here `none`) when no leading digits exist. -/
def parseIntOpt (s : String) : Option Nat :=
  match leadingDigits s.data with
  | [] => none
  | ds => some (digitsToNat ds)

/-- The decimal digit character for `n < 10`. -/
def digitChar (n : Nat) : Char :=
  match n with
  | 0 => '0' | 1 => '1' | 2 => '2' | 3 => '3' | 4 => '4'
  | 5 => '5' | 6 => '6' | 7 => '7' | 8 => '8' | _ => '9'

/-- Decimal digits of `n`, most significant first, with explicit fuel
(`fuel > n` suffices) so that the kernel can evaluate it. -/
def natDigitsAux : Nat → Nat → List Char
  | _, 0 => []
  | n, fuel + 1 =>
      if n < 10 then [digitChar n]
      else natDigitsAux (n / 10) fuel ++ [digitChar (n % 10)]

/-- `n.toString()` for a nonnegative integer: its decimal digits. -/
def natDigits (n : Nat) : List Char := natDigitsAux n (n + 1)

/-- `.padStart(6, '0')`. -/
def padStart6 (l : List Char) : List Char :=
  List.replicate (6 - l.length) '0' ++ l

/-- `` `TICKET-${n.toString().padStart(6, '0')}` ``. -/
def mkTicketNumber (n : Nat) : String :=
  String.mk ("TICKET-".data ++ padStart6 (natDigits n))

/-- `String.prototype.replace` with a plain-string pattern: drop the first
occurrence of `pat`. -/
def listReplaceFirst : List Char → List Char → List Char
  | [], _ => []
  | c :: cs, pat =>
      if pat.isPrefixOf (c :: cs) then (c :: cs).drop pat.length
      else c :: listReplaceFirst cs pat

/-- `s.replace('TICKET-', '')`. -/
def replaceTicketTag (s : String) : String :=
  String.mk (listReplaceFirst s.data "TICKET-".data)

/-- The ticket number assigned by the `pre('save')` hook when the
generation query succeeds, as a function of the store's existing numbers. -/
def genTicketNumber (store : List String) : String :=
  match maxTicketNumber store with
  | none => mkTicketNumber 1
  | some last =>
      if last = "" then mkTicketNumber 1
      else
        match parseIntOpt (replaceTicketTag last) with
        | some m => mkTicketNumber (m + 1)
        | none => mkTicketNumber 1

/-- The catch-branch fallback:
`` `TICKET-${Date.now().toString().padStart(6, '0')}` ``. -/
def genTicketNumberFallback (nowMs : Nat) : String :=
  String.mk ("TICKET-".data ++ padStart6 (natDigits nowMs))

/-- Sequential creation of `n` tickets (each save completing before the
next): returns the assigned numbers in creation order. -/
def createTickets : Nat → List String → List String
  | 0, _ => []
  | Nat.succ n, store =>
      let num := genTicketNumber store
      num :: createTickets n (store ++ [num])

/-! #### Digit arithmetic lemmas -/

theorem digitChar_toNat (n : Nat) (h : n < 10) :
    (digitChar n).toNat = 48 + n := by
  interval_cases n <;> rfl

theorem isDigitChar_digitChar (n : Nat) (h : n < 10) :
    isDigitChar (digitChar n) = true := by
  interval_cases n <;> rfl

theorem natDigitsAux_fuel_irrel (n : Nat) : ∀ f1 f2, n < f1 → n < f2 →
    natDigitsAux n f1 = natDigitsAux n f2 := by
  induction n using Nat.strong_induction_on with
  | _ n ih =>
      intro f1 f2 h1 h2
      match f1, f2 with
      | g1 + 1, g2 + 1 =>
          simp only [natDigitsAux]
          by_cases h : n < 10
          · simp [h]
          · have hdiv : n / 10 < n := Nat.div_lt_self (by omega) (by omega)
            simp only [h, if_false]
            rw [ih (n / 10) hdiv g1 g2 (by omega) (by omega)]

theorem natDigits_eq (n : Nat) :
    natDigits n =
      if n < 10 then [digitChar n]
      else natDigits (n / 10) ++ [digitChar (n % 10)] := by
  by_cases h : n < 10
  · simp only [natDigits, natDigitsAux, h, if_true]
  · have hdiv : n / 10 < n := Nat.div_lt_self (by omega) (by omega)
    have h1 : natDigits n = natDigitsAux (n / 10) n ++ [digitChar (n % 10)] := by
      simp only [natDigits, natDigitsAux, h, if_false]
    rw [h1,
      natDigitsAux_fuel_irrel (n / 10) n (n / 10 + 1) (by omega) (by omega)]
    simp only [h, if_false, natDigits]

theorem natDigits_ne_nil (n : Nat) : natDigits n ≠ [] := by
  rw [natDigits_eq]
  by_cases h : n < 10 <;> simp [h]

theorem natDigits_all_digits (n : Nat) :
    ∀ c ∈ natDigits n, isDigitChar c = true := by
  induction n using Nat.strong_induction_on with
  | _ n ih =>
      rw [natDigits_eq]
      by_cases h : n < 10
      · simp only [h, if_true, List.mem_singleton]
        intro c hc
        subst hc
        exact isDigitChar_digitChar n h
      · have hdiv : n / 10 < n := Nat.div_lt_self (by omega) (by omega)
        simp only [h, if_false, List.mem_append, List.mem_singleton]
        intro c hc
        rcases hc with hc | hc
        · exact ih (n / 10) hdiv c hc
        · subst hc
          exact isDigitChar_digitChar (n % 10) (Nat.mod_lt _ (by omega))

theorem natDigits_length_le (n : Nat) :
    ∀ k, n < 10 ^ (k + 1) → (natDigits n).length ≤ k + 1 := by
  induction n using Nat.strong_induction_on with
  | _ n ih =>
      intro k hk
      rw [natDigits_eq]
      by_cases h : n < 10
      · simp [h]
      · have hdiv : n / 10 < n := Nat.div_lt_self (by omega) (by omega)
        obtain ⟨k', rfl⟩ : ∃ k', k = k' + 1 := by
          refine ⟨k - 1, ?_⟩
          have hk1 : k ≠ 0 := by
            rintro rfl
            exact h (by simpa using hk)
          omega
        have hn : n / 10 < 10 ^ (k' + 1) := by
          rw [Nat.div_lt_iff_lt_mul (by omega)]
          calc n < 10 ^ (k' + 1 + 1) := hk
          _ = 10 ^ (k' + 1) * 10 := by ring
        have := ih (n / 10) hdiv k' hn
        simp only [h, if_false, List.length_append, List.length_singleton]
        omega

theorem digitsToNat_lt (l : List Char)
    (h : ∀ c ∈ l, isDigitChar c = true) :
    digitsToNat l < 10 ^ l.length := by
  induction l with
  | nil => simp [digitsToNat]
  | cons c cs ih =>
      have hc : isDigitChar c = true := h c (List.mem_cons_self c cs)
      have hd : c.toNat - 48 ≤ 9 := by
        simp only [isDigitChar, Bool.and_eq_true, decide_eq_true_eq] at hc
        omega
      have htail : digitsToNat cs < 10 ^ cs.length :=
        ih (fun x hx => h x (List.mem_cons_of_mem c hx))
      have hmul : (c.toNat - 48) * 10 ^ cs.length ≤ 9 * 10 ^ cs.length :=
        Nat.mul_le_mul_right _ hd
      simp only [digitsToNat, List.length_cons, pow_succ]
      omega

theorem digitsToNat_append_singleton (l : List Char) (c : Char) :
    digitsToNat (l ++ [c]) = 10 * digitsToNat l + (c.toNat - 48) := by
  induction l with
  | nil => simp [digitsToNat]
  | cons x xs ih =>
      simp only [List.cons_append, digitsToNat, ih, List.append_eq,
        List.length_append, List.length_cons, List.length_nil, pow_succ,
        pow_zero]
      ring

theorem digitsToNat_natDigits (n : Nat) :
    digitsToNat (natDigits n) = n := by
  induction n using Nat.strong_induction_on with
  | _ n ih =>
      rw [natDigits_eq]
      by_cases h : n < 10
      · simp only [h, if_true, digitsToNat, digitChar_toNat n h,
          List.length_nil, pow_zero]
        omega
      · have hdiv : n / 10 < n := Nat.div_lt_self (by omega) (by omega)
        simp only [h, if_false, digitsToNat_append_singleton,
          ih (n / 10) hdiv, digitChar_toNat (n % 10) (Nat.mod_lt _ (by omega))]
        omega

theorem digitsToNat_replicate_zero (z : Nat) (l : List Char) :
    digitsToNat (List.replicate z '0' ++ l) = digitsToNat l := by
  induction z with
  | zero => rfl
  | succ z ih =>
      have h0 : ('0' : Char).toNat - 48 = 0 := rfl
      simp only [List.replicate_succ, List.cons_append, digitsToNat, ih, h0,
        List.append_eq, Nat.zero_mul, Nat.zero_add]

/-! #### Padding and the canonical number string -/

/-- The padded digit block of a ticket number. -/
def paddedDigits (n : Nat) : List Char := padStart6 (natDigits n)

theorem paddedDigits_all_digits (n : Nat) :
    ∀ c ∈ paddedDigits n, isDigitChar c = true := by
  intro c hc
  simp only [paddedDigits, padStart6, List.mem_append,
    List.mem_replicate] at hc
  rcases hc with ⟨-, rfl⟩ | hc
  · rfl
  · exact natDigits_all_digits n c hc

theorem digitsToNat_paddedDigits (n : Nat) :
    digitsToNat (paddedDigits n) = n := by
  simp only [paddedDigits, padStart6, digitsToNat_replicate_zero,
    digitsToNat_natDigits]

theorem paddedDigits_length (n : Nat) (h : n < 1000000) :
    (paddedDigits n).length = 6 := by
  have hlen : (natDigits n).length ≤ 6 := natDigits_length_le n 5 (by omega)
  simp only [paddedDigits, padStart6, List.length_append,
    List.length_replicate]
  omega

theorem paddedDigits_ne_nil (n : Nat) : paddedDigits n ≠ [] := by
  intro h
  exact natDigits_ne_nil n (by
    have := congrArg List.length h
    simp only [paddedDigits, padStart6, List.length_append,
      List.length_replicate, List.length_nil] at this
    exact List.eq_nil_of_length_eq_zero (by omega))

theorem mkTicketNumber_inj (a b : Nat)
    (h : mkTicketNumber a = mkTicketNumber b) : a = b := by
  have hdata : "TICKET-".data ++ paddedDigits a
      = "TICKET-".data ++ paddedDigits b := congrArg String.data h
  have hpad : paddedDigits a = paddedDigits b :=
    List.append_cancel_left hdata
  have := congrArg digitsToNat hpad
  simpa [digitsToNat_paddedDigits] using this

theorem mkTicketNumber_ne_empty (n : Nat) : mkTicketNumber n ≠ "" := by
  intro h
  have hdata : "TICKET-".data ++ paddedDigits n = [] := congrArg String.data h
  simp at hdata

/-! #### Lexicographic comparison vs numeric comparison -/

theorem charListLt_append_left (p x y : List Char) :
    charListLt (p ++ x) (p ++ y) = charListLt x y := by
  induction p with
  | nil => rfl
  | cons a ps ih =>
      simp only [List.cons_append, charListLt, Nat.lt_irrefl, if_false]
      exact ih

theorem charListLt_digit_lists (x : List Char) : ∀ y : List Char,
    x.length = y.length →
    (∀ c ∈ x, isDigitChar c = true) → (∀ c ∈ y, isDigitChar c = true) →
    charListLt x y = decide (digitsToNat x < digitsToNat y) := by
  induction x with
  | nil =>
      intro y hlen _ _
      have : y = [] := List.eq_nil_of_length_eq_zero (by simpa using hlen.symm)
      subst this
      rfl
  | cons a as ih =>
      intro y hlen hx hy
      match y with
      | [] => simp at hlen
      | b :: bs =>
          have hlen' : as.length = bs.length := by simpa using hlen
          have hda : 48 ≤ a.toNat ∧ a.toNat ≤ 57 := by
            have := hx a (List.mem_cons_self a as)
            simp only [isDigitChar, Bool.and_eq_true, decide_eq_true_eq] at this
            exact this
          have hdb : 48 ≤ b.toNat ∧ b.toNat ≤ 57 := by
            have := hy b (List.mem_cons_self b bs)
            simp only [isDigitChar, Bool.and_eq_true, decide_eq_true_eq] at this
            exact this
          have hva : digitsToNat as < 10 ^ as.length :=
            digitsToNat_lt as (fun c hc => hx c (List.mem_cons_of_mem a hc))
          have hvb : digitsToNat bs < 10 ^ bs.length :=
            digitsToNat_lt bs (fun c hc => hy c (List.mem_cons_of_mem b hc))
          simp only [charListLt, digitsToNat, List.length_cons, hlen']
          by_cases h1 : a.toNat < b.toNat
          · have hstep : (a.toNat - 48) * 10 ^ bs.length + 10 ^ bs.length
                ≤ (b.toNat - 48) * 10 ^ bs.length := by
              have : (a.toNat - 48) + 1 ≤ b.toNat - 48 := by omega
              calc (a.toNat - 48) * 10 ^ bs.length + 10 ^ bs.length
                  = ((a.toNat - 48) + 1) * 10 ^ bs.length := by ring
                _ ≤ (b.toNat - 48) * 10 ^ bs.length :=
                    Nat.mul_le_mul_right _ this
            rw [if_pos h1]
            rw [hlen'] at hva
            symm
            simp only [decide_eq_true_eq]
            omega
          · by_cases h2 : b.toNat < a.toNat
            · have hstep : (b.toNat - 48) * 10 ^ bs.length + 10 ^ bs.length
                  ≤ (a.toNat - 48) * 10 ^ bs.length := by
                have : (b.toNat - 48) + 1 ≤ a.toNat - 48 := by omega
                calc (b.toNat - 48) * 10 ^ bs.length + 10 ^ bs.length
                    = ((b.toNat - 48) + 1) * 10 ^ bs.length := by ring
                  _ ≤ (a.toNat - 48) * 10 ^ bs.length :=
                      Nat.mul_le_mul_right _ this
              rw [if_neg h1, if_pos h2]
              rw [hlen'] at hva
              symm
              simp only [decide_eq_false_iff_not, not_lt]
              omega
            · have heq : a.toNat = b.toNat := by omega
              rw [if_neg h1, if_neg h2,
                ih bs hlen' (fun c hc => hx c (List.mem_cons_of_mem a hc))
                  (fun c hc => hy c (List.mem_cons_of_mem b hc))]
              have hiff : digitsToNat as < digitsToNat bs ↔
                  (a.toNat - 48) * 10 ^ bs.length + digitsToNat as
                    < (b.toNat - 48) * 10 ^ bs.length + digitsToNat bs := by
                rw [heq]
                omega
              exact decide_eq_decide.mpr hiff

theorem strLtB_mkTicketNumber (a b : Nat)
    (ha : a < 1000000) (hb : b < 1000000) :
    strLtB (mkTicketNumber a) (mkTicketNumber b) = decide (a < b) := by
  show charListLt ("TICKET-".data ++ paddedDigits a)
      ("TICKET-".data ++ paddedDigits b) = decide (a < b)
  rw [charListLt_append_left,
    charListLt_digit_lists (paddedDigits a) (paddedDigits b)
      (by rw [paddedDigits_length a ha, paddedDigits_length b hb])
      (paddedDigits_all_digits a) (paddedDigits_all_digits b),
    digitsToNat_paddedDigits, digitsToNat_paddedDigits]

/-! #### Parsing a canonical number round-trips -/

theorem isPrefixOf_append_self (l x : List Char) :
    l.isPrefixOf (l ++ x) = true := by
  induction l with
  | nil => simp
  | cons a as ih =>
      simp only [List.cons_append, List.isPrefixOf_cons₂, beq_self_eq_true,
        Bool.true_and]
      exact ih

theorem listReplaceFirst_append (pat x : List Char) (h : pat ≠ []) :
    listReplaceFirst (pat ++ x) pat = x := by
  match pat with
  | [] => exact absurd rfl h
  | p :: ps =>
      show listReplaceFirst (p :: (ps ++ x)) (p :: ps) = x
      rw [listReplaceFirst]
      rw [show ((p :: ps).isPrefixOf (p :: (ps ++ x))) = true from
        isPrefixOf_append_self (p :: ps) x]
      simp only [if_true, List.length_cons]
      exact List.drop_left (p :: ps) x

theorem leadingDigits_of_all_digits (l : List Char)
    (h : ∀ c ∈ l, isDigitChar c = true) : leadingDigits l = l := by
  induction l with
  | nil => rfl
  | cons c cs ih =>
      simp only [leadingDigits, h c (List.mem_cons_self c cs), if_true,
        List.cons.injEq, true_and]
      exact ih (fun x hx => h x (List.mem_cons_of_mem c hx))

theorem parse_mkTicketNumber (n : Nat) :
    parseIntOpt (replaceTicketTag (mkTicketNumber n)) = some n := by
  have hrep : replaceTicketTag (mkTicketNumber n)
      = String.mk (paddedDigits n) := by
    show String.mk (listReplaceFirst ("TICKET-".data ++ paddedDigits n)
      "TICKET-".data) = _
    rw [listReplaceFirst_append "TICKET-".data (paddedDigits n) (by decide)]
  rw [hrep]
  show (match leadingDigits (paddedDigits n) with
    | [] => none
    | ds => some (digitsToNat ds)) = some n
  rw [leadingDigits_of_all_digits (paddedDigits n) (paddedDigits_all_digits n)]
  obtain ⟨c, cs, hcc⟩ := List.exists_cons_of_ne_nil (paddedDigits_ne_nil n)
  rw [hcc]
  have := digitsToNat_paddedDigits n
  rw [hcc] at this
  simp [this]

/-! #### The descending-sort query on a canonical store -/

/-- Every number in the store is a canonical `TICKET-%06d` with value in
`[1, M]`. -/
def CanonicalStore (store : List String) (M : Nat) : Prop :=
  ∀ s ∈ store, ∃ k, 1 ≤ k ∧ k ≤ M ∧ s = mkTicketNumber k

theorem foldl_max_canonical (M : Nat) (hM : M ≤ 999999) (l : List String) :
    ∀ a : Nat, 1 ≤ a → a ≤ M → CanonicalStore l M →
    ∃ m, 1 ≤ m ∧ m ≤ M ∧ a ≤ m ∧
      l.foldl (fun acc x => if strLtB acc x then x else acc) (mkTicketNumber a)
        = mkTicketNumber m ∧
      (∀ k, 1 ≤ k → k ≤ M → mkTicketNumber k ∈ l → k ≤ m) := by
  induction l with
  | nil =>
      intro a ha1 haM _
      exact ⟨a, ha1, haM, le_refl a, rfl, fun k _ _ hk => absurd hk
        (List.not_mem_nil _)⟩
  | cons s rest ih =>
      intro a ha1 haM hcan
      obtain ⟨k₀, hk₀1, hk₀M, rfl⟩ := hcan s (List.mem_cons_self s rest)
      have hstep : (if strLtB (mkTicketNumber a) (mkTicketNumber k₀)
            then mkTicketNumber k₀ else mkTicketNumber a)
          = mkTicketNumber (max a k₀) := by
        rw [strLtB_mkTicketNumber a k₀ (by omega) (by omega)]
        by_cases h : a < k₀
        · simp [h, Nat.max_eq_right (le_of_lt h)]
        · have hle : k₀ ≤ a := by omega
          simp [h, Nat.max_eq_left hle]
      have hrest : CanonicalStore rest M :=
        fun x hx => hcan x (List.mem_cons_of_mem _ hx)
      obtain ⟨m, hm1, hmM, hmax, hfold, hub⟩ :=
        ih (max a k₀) (by omega) (by omega) hrest
      refine ⟨m, hm1, hmM, le_trans (Nat.le_max_left a k₀) hmax, ?_, ?_⟩
      · simpa [List.foldl_cons, hstep] using hfold
      · intro k hk1 hkM hkmem
        rcases List.mem_cons.mp hkmem with heq | hmem
        · have : k = k₀ := mkTicketNumber_inj k k₀ heq
          subst this
          exact le_trans (Nat.le_max_right a k) hmax
        · exact hub k hk1 hkM hmem

theorem maxTicketNumber_canonical (store : List String) (M : Nat)
    (h1 : 1 ≤ M) (hM : M ≤ 999999) (hall : CanonicalStore store M)
    (hmem : mkTicketNumber M ∈ store) :
    maxTicketNumber store = some (mkTicketNumber M) := by
  match store with
  | [] => exact absurd hmem (List.not_mem_nil _)
  | s :: rest =>
      obtain ⟨k₀, hk₀1, hk₀M, rfl⟩ := hall _ (List.mem_cons_self s rest)
      obtain ⟨m, hm1, hmM, hmax, hfold, hub⟩ :=
        foldl_max_canonical M hM rest k₀ hk₀1 hk₀M
          (fun x hx => hall x (List.mem_cons_of_mem _ hx))
      have hMm : M ≤ m := by
        rcases List.mem_cons.mp hmem with heq | hmem'
        · have := mkTicketNumber_inj M k₀ heq
          omega
        · exact hub M h1 (le_refl M) hmem'
      have : m = M := by omega
      subst this
      simpa [maxTicketNumber] using hfold

theorem genTicketNumber_canonical (store : List String) (M : Nat)
    (h1 : 1 ≤ M) (hM : M ≤ 999999) (hall : CanonicalStore store M)
    (hmem : mkTicketNumber M ∈ store) :
    genTicketNumber store = mkTicketNumber (M + 1) := by
  unfold genTicketNumber
  rw [maxTicketNumber_canonical store M h1 hM hall hmem]
  show (if mkTicketNumber M = "" then mkTicketNumber 1
    else match parseIntOpt (replaceTicketTag (mkTicketNumber M)) with
      | some m => mkTicketNumber (m + 1)
      | none => mkTicketNumber 1) = mkTicketNumber (M + 1)
  rw [if_neg (mkTicketNumber_ne_empty M), parse_mkTicketNumber M]

/-- C9 amended, part of the statement: numbers assigned to `N` sequential
creations, starting from a store whose numbers are all canonical with
values at most `M` (with `TICKET-%06d(M)` present unless the store is
empty and `M = 0`), as long as `M + N` stays within six digits. -/
theorem createTickets_canonical (N : Nat) : ∀ (store : List String) (M : Nat),
    CanonicalStore store M →
    ((M = 0 ∧ store = []) ∨ (1 ≤ M ∧ mkTicketNumber M ∈ store)) →
    M + N ≤ 999999 →
    createTickets N store
      = (List.range N).map (fun i => mkTicketNumber (M + 1 + i)) := by
  induction N with
  | zero => intro store M _ _ _; rfl
  | succ N ih =>
      intro store M hall hmem hbound
      have hgen : genTicketNumber store = mkTicketNumber (M + 1) := by
        rcases hmem with ⟨hM0, hstore⟩ | ⟨hM1, hmem'⟩
        · subst hstore
          subst hM0
          rfl
        · exact genTicketNumber_canonical store M hM1 (by omega) hall hmem'
      have hall' : CanonicalStore (store ++ [mkTicketNumber (M + 1)]) (M + 1) := by
        intro s hs
        rcases List.mem_append.mp hs with hs | hs
        · obtain ⟨k, hk1, hkM, rfl⟩ := hall s hs
          exact ⟨k, hk1, by omega, rfl⟩
        · rcases List.mem_singleton.mp hs with rfl
          exact ⟨M + 1, by omega, le_refl _, rfl⟩
      have hmem' : mkTicketNumber (M + 1) ∈ store ++ [mkTicketNumber (M + 1)] :=
        List.mem_append.mpr (Or.inr (List.mem_singleton.mpr rfl))
      have hIH := ih (store ++ [mkTicketNumber (M + 1)]) (M + 1) hall'
        (Or.inr ⟨by omega, hmem'⟩) (by omega)
      show genTicketNumber store ::
          createTickets N (store ++ [genTicketNumber store]) = _
      rw [hgen, hIH, List.range_succ_eq_map, List.map_cons, List.map_map]
      refine congrArg₂ _ (by norm_num) ?_
      refine List.map_congr_left ?_
      intro i _
      simp only [Function.comp_apply]
      exact congrArg mkTicketNumber (by omega)

/-- C9 amended: as long as every stored number is canonical (`TICKET-`
plus six zero-padded digits) with value at most `M` and `M + N` stays
below one million, `N` sequential creations assign exactly
`TICKET-%06d(M+1) … TICKET-%06d(M+N)` — pairwise distinct, strictly
increasing in the store's lexicographic order, each the zero-padded
successor of the previous highest number — and on query failure the hook
still assigns `TICKET-` followed by the (padded) decimal timestamp rather
than failing. Beyond six digits the sort's lexicographic maximum diverges
from the numeric maximum and the guarantee is lost (see the
counterexample). -/
theorem ticketNumbers_sequential_increasing (N : Nat)
    (store : List String) (M : Nat)
    (hall : CanonicalStore store M)
    (hmem : (M = 0 ∧ store = []) ∨ (1 ≤ M ∧ mkTicketNumber M ∈ store))
    (hbound : M + N ≤ 999999) :
    createTickets N store
      = (List.range N).map (fun i => mkTicketNumber (M + 1 + i)) ∧
    (createTickets N store).Nodup ∧
    List.Pairwise (fun a b => strLtB a b = true) (createTickets N store) ∧
    ∀ nowMs, ∃ ds, ds ≠ [] ∧ (∀ c ∈ ds, isDigitChar c = true) ∧
      digitsToNat ds = nowMs ∧
      genTicketNumberFallback nowMs
        = String.mk ("TICKET-".data ++ padStart6 ds) := by
  have hchar := createTickets_canonical N store M hall hmem hbound
  have hinj : Function.Injective (fun i => mkTicketNumber (M + 1 + i)) := by
    intro i j h
    have := mkTicketNumber_inj _ _ h
    omega
  refine ⟨hchar, ?_, ?_, ?_⟩
  · rw [hchar]
    exact (List.nodup_range N).map hinj
  · rw [hchar, List.pairwise_map]
    refine List.Pairwise.imp_of_mem ?_ (List.pairwise_lt_range N)
    intro i j hi hj hij
    have hi' : i < N := List.mem_range.mp hi
    have hj' : j < N := List.mem_range.mp hj
    rw [strLtB_mkTicketNumber (M + 1 + i) (M + 1 + j) (by omega) (by omega)]
    simp only [decide_eq_true_eq]
    omega
  · intro nowMs
    exact ⟨natDigits nowMs, natDigits_ne_nil nowMs,
      natDigits_all_digits nowMs, digitsToNat_natDigits nowMs, rfl⟩

/-- C9 counterexample: once a seven-digit number exists the claim fails.
With `TICKET-999999` and `TICKET-1000000` in the store (the state reached
after exactly one million sequential creations), the descending string
sort still ranks `TICKET-999999` highest, so the next two sequential
creations both compute `999999 + 1` and assign the SAME number
`TICKET-1000000` twice: the assigned numbers are neither pairwise
distinct nor strictly increasing (and collide with an existing number). -/
theorem ticketNumbers_duplicate_beyond_six_digits :
    createTickets 2 ["TICKET-999999", "TICKET-1000000"]
      = ["TICKET-1000000", "TICKET-1000000"] ∧
    ¬ (createTickets 2 ["TICKET-999999", "TICKET-1000000"]).Nodup := by
  constructor
  · rfl
  · decide

/-- Witness for C9's amended theorem: three creations from an empty store
yield `TICKET-000001`, `TICKET-000002`, `TICKET-000003`. -/
theorem ticketNumbers_sequential_increasing_witness :
    createTickets 3 [] = ["TICKET-000001", "TICKET-000002", "TICKET-000003"] ∧
    (createTickets 3 []).Nodup := by
  have h := ticketNumbers_sequential_increasing 3 [] 0
    (fun s hs => absurd hs (List.not_mem_nil s)) (Or.inl ⟨rfl, rfl⟩)
    (by omega)
  refine ⟨?_, h.2.1⟩
  rw [h.1]
  rfl

end InfraSync
